import Mathlib

/-!
Verification development for `src/ip_lookup.py`.

The program scans a web-server access log, extracts the first space-delimited
token of each line, validates it with `ipaddress.ip_address`, accumulates a
set of unique IP strings, then for each unique IP queries a geolocation
service (`get_ip_location`) and writes one CSV row per IP.

This file gives a shallow embedding of the program:
* `pySplit` models Python `str.split(sep)` with an explicit one-character
  separator (`"".split(sep) == [""]`, empty runs kept).
* `isIPv4`, `isIPv6`, `is_ip` model the validation performed by
  `ipaddress.ip_address` (CPython 3.11 `Lib/ipaddress.py`): strict dotted-quad
  IPv4 (no leading zeros), IPv6 with `::` compression, an optional embedded
  IPv4 suffix, and an optional `%scope` suffix (any non-empty scope string
  without a further `%`).
* `get_ip_location` models the resolver over an explicit service-behaviour
  type (`HttpResponse`); Python exceptions that the resolver does not catch
  are surfaced as `Except.error`.
* `scanIPs`, `writeRows`, `parse_log_file` model the driver.  The Python
  `set` is modelled as a first-insertion-ordered duplicate-free list (one
  realizable iteration order of a CPython set).  The input file is modelled
  as `Option (List String)`: `none` means the file does not exist, and each
  list element is one line exactly as Python file iteration yields it
  (including its trailing newline character, if any).  The produced CSV file
  is modelled as `Option (List (List String))` of rows (`none` = the output
  path was never opened); CSV quoting/serialisation is abstracted.
-/

/-- Python `str.split(sep)` for a single-character separator `sep`:
the result always has at least one element, empty pieces are kept. -/
def pySplit (sep : Char) : List Char → List (List Char)
  | [] => [[]]
  | c :: cs =>
    if c = sep then
      [] :: pySplit sep cs
    else
      match pySplit sep cs with
      | [] => [[c]]
      | t :: ts => (c :: t) :: ts

/-- An ASCII decimal digit, as checked by `octet_str.isascii() and octet_str.isdigit()`. -/
def isAsciiDigit (c : Char) : Bool := decide ('0' ≤ c) && decide (c ≤ '9')

/-- An ASCII hexadecimal digit (`_HEX_DIGITS` in `ipaddress.py`). -/
def isHexChar (c : Char) : Bool :=
  isAsciiDigit c || (decide ('a' ≤ c) && decide (c ≤ 'f')) || (decide ('A' ≤ c) && decide (c ≤ 'F'))

/-- Numeric value of a string of decimal digits (`int(octet_str, 10)`). -/
def octetVal (o : List Char) : Nat :=
  o.foldl (fun a c => 10 * a + (c.toNat - '0'.toNat)) 0

/-- `IPv4Address._parse_octet`: non-empty, ASCII digits only, at most 3
characters, no leading zero (except `"0"` itself), value at most 255. -/
def isValidOctet (o : List Char) : Bool :=
  decide (o ≠ []) && o.all isAsciiDigit && decide (o.length ≤ 3) &&
    (decide (o = ['0']) || decide (o.headD '0' ≠ '0')) && decide (octetVal o ≤ 255)

/-- Validity per `IPv4Address.__init__` on a string: rejects `'/'`, splits on
`'.'`, requires exactly 4 octets, each valid per `_parse_octet`. -/
def isIPv4 (l : List Char) : Bool :=
  decide ('/' ∉ l) &&
    (let octs := pySplit '.' l
     decide (octs.length = 4) && octs.all isValidOctet)

/-- `IPv6Address._split_scope_id`: partition at the first `'%'`; no `'%'`
means no scope; otherwise the scope must be non-empty and contain no further
`'%'`.  Returns the address part, or `none` when the scope is ill-formed. -/
def splitScope (l : List Char) : Option (List Char) :=
  if '%' ∈ l then
    let scope := (l.dropWhile (· ≠ '%')).drop 1
    if scope = [] ∨ '%' ∈ scope then none else some (l.takeWhile (· ≠ '%'))
  else some l

/-- `IPv6Address._parse_hextet`: hex digits only, non-empty
(`int("", 16)` raises), at most 4 characters. -/
def isValidHextet (h : List Char) : Bool :=
  decide (h ≠ []) && h.all isHexChar && decide (h.length ≤ 4)

/-- The IPv4-suffix step of `IPv6Address._ip_int_from_string`: when the last
colon-part contains a `'.'`, it must be a valid IPv4 address and is replaced
by two hextets (their values are irrelevant to validity, modelled as `'0'`). -/
def expandV4 (parts : List (List Char)) : Option (List (List Char)) :=
  match parts.getLast? with
  | none => some parts
  | some last =>
    if '.' ∈ last then
      if isIPv4 last then some (parts.dropLast ++ [['0'], ['0']]) else none
    else some parts

/-- Indices `i` with `0 < i < parts.length - 1` and `parts[i]` empty: the
candidate positions of the `'::'` skip in `_ip_int_from_string`. -/
def emptyMids (parts : List (List Char)) : List Nat :=
  (List.range parts.length).filter
    (fun i => decide (0 < i) && decide (i + 1 < parts.length) && decide (parts.getD i [] = []))

/-- `parts_hi` with a skip at index `k`: starts at `k`; an empty first part
(`if not parts[0]`) decrements it and the decremented value must be zero
(`if parts_hi: raise`, a bare leading `':'` needs `'::'`).  `none` = raise. -/
def hiVal (parts : List (List Char)) (k : Nat) : Option Nat :=
  if parts.headD [] = [] then (if k - 1 = 0 then some 0 else none) else some k

/-- `parts_lo` with a skip at index `k`: starts at `len(parts) - k - 1`; an
empty last part decrements it and the decremented value must be zero (a bare
trailing `':'` needs `'::'`).  `none` = raise. -/
def loVal (parts : List (List Char)) (k : Nat) : Option Nat :=
  if parts.getLastD [] = [] then (if parts.length - k - 1 - 1 = 0 then some 0 else none)
  else some (parts.length - k - 1)

/-- With a skip: `parts_skipped = 8 - (parts_hi + parts_lo)` must be at least
one, and the first `parts_hi` and last `parts_lo` parts must parse as
hextets. -/
def checkHextets (parts : List (List Char)) (hi lo : Nat) : Bool :=
  decide (1 ≤ 8 - (hi + lo)) && (parts.take hi).all isValidHextet &&
    (parts.drop (parts.length - lo)).all isValidHextet

/-- The skip-index bookkeeping of `IPv6Address._ip_int_from_string` after the
IPv4-suffix expansion and the 9-part bound: at most one empty middle part; with
a skip at `k`, `parts_hi`/`parts_lo` are adjusted for empty endpoints (a bare
leading/trailing `':'` is rejected), at least one part must be skipped, and
the retained head and tail parts must be valid hextets; without a skip,
exactly 8 non-empty parts, all valid hextets. -/
def checkParts (parts : List (List Char)) : Bool :=
  match emptyMids parts with
  | [] =>
    decide (parts.length = 8) && decide (parts.headD [] ≠ []) &&
      decide (parts.getLastD [] ≠ []) && parts.all isValidHextet
  | [k] =>
    match hiVal parts k, loVal parts k with
    | some hi, some lo => checkHextets parts hi lo
    | _, _ => false
  | _ => false

/-- `IPv6Address._ip_int_from_string` on the scope-free address string:
non-empty, at least 3 colon-parts, IPv4 suffix expanded, at most 9 parts,
then the `'::'`/hextet checks of `checkParts`. -/
def isIPv6Core (l : List Char) : Bool :=
  decide (l ≠ []) &&
    (let parts0 := pySplit ':' l
     decide (3 ≤ parts0.length) &&
       match expandV4 parts0 with
       | none => false
       | some parts => decide (parts.length ≤ 9) && checkParts parts)

/-- Validity per `IPv6Address.__init__` on a string: rejects `'/'`, splits
off an optional `%scope`, then validates the address part. -/
def isIPv6 (l : List Char) : Bool :=
  decide ('/' ∉ l) &&
    match splitScope l with
    | none => false
    | some addr => isIPv6Core addr

/-- `ipaddress.ip_address(s)` succeeds: tries IPv4 first, then IPv6. -/
def is_ip (s : String) : Bool := isIPv4 s.toList || isIPv6 s.toList

/-- A JSON value, as produced by `response.json()`. -/
inductive Json where
  | str (s : String)
  | num (n : Int)
  | bool (b : Bool)
  | null
  | arr (xs : List Json)
  | obj (kvs : List (String × Json))

/-- Python `value == "success"` for a JSON value: true exactly when the value
is that string (comparison with a non-string is `False`, never an error). -/
def Json.eqStr : Json → String → Bool
  | .str s, t => s == t
  | _, _ => false

/-- Whether a JSON value is an object (a Python `dict`). -/
def Json.isObj : Json → Bool
  | .obj _ => true
  | _ => false

/-- Python `str(value)` for the f-string diagnostics; container rendering is
abstracted to a fixed marker. -/
def Json.pyStr : Json → String
  | .str s => s
  | .num n => toString n
  | .bool b => if b then "True" else "False"
  | .null => "None"
  | .arr _ => "<list>"
  | .obj _ => "<dict>"

/-- `data.get(k, default)` / `data[k]` on a decoded JSON object. -/
def jsonGet (kvs : List (String × Json)) (k : String) : Option Json :=
  List.lookup k kvs

/-- Behaviour of the one `requests.get` call for a given IP:
either the transport raises a `requests.exceptions.RequestException`
(timeout, connection error, ...), or a response arrives with a status code
and a body; `body = none` models a body on which `response.json()` raises
`requests.exceptions.JSONDecodeError` (a `RequestException`). -/
inductive HttpResponse where
  | transportError (msg : String)
  | response (statusCode : Nat) (body : Option Json)

/-- The 4-tuple `(city, country, org, orgname)` returned by
`get_ip_location` on the success path.  Fields are JSON values exactly as
fetched with `data.get(key, "Unknown")`. -/
structure LocationRecord where
  city : Json
  country : Json
  org : Json
  orgname : Json

/-- A Python exception escaping `get_ip_location` or raised in the driver
loop, with a representative message. -/
inductive PyExc where
  | typeError (msg : String)
  | valueError (msg : String)

/-- `str(e)` for the driver's outer `except Exception as e` print. -/
def excMsg : PyExc → String
  | .typeError m => m
  | .valueError m => m

/-- Model of `get_ip_location(ip_address)` given the service behaviour for
this IP.  Returns the resolver's outcome — `Except.error` is an exception the
function does not catch, `.ok none` is the Python `None` failure indicator,
`.ok (some rec)` the 4-tuple — paired with the list of printed diagnostics.

Source, line by line:
* a raised `RequestException` from `requests.get` is caught and reported;
* `response.raise_for_status()` raises `HTTPError` (a `RequestException`,
  caught) exactly when `400 <= status_code < 600`;
* a `response.json()` decode failure is a `JSONDecodeError`
  (a `RequestException`, caught);
* `data["status"]` on a decoded non-object payload raises `TypeError`,
  which no `except` clause catches;
* on an object payload, a missing `"status"` key raises `KeyError` (caught);
* `data["status"] == "success"` selects the success path, which builds the
  4-tuple with `data.get(..., "Unknown")`;
* otherwise `data['message']` is printed (a missing `"message"` key raises
  `KeyError`, caught) and `None` is returned. -/
def get_ip_location (resp : HttpResponse) : Except PyExc (Option LocationRecord) × List String :=
  match resp with
  | .transportError m =>
    (.ok none, ["Error during IP geolocation lookup: " ++ m])
  | .response code body =>
    if 400 ≤ code ∧ code < 600 then
      (.ok none, ["Error during IP geolocation lookup: HTTP error " ++ toString code])
    else
      match body with
      | none =>
        (.ok none, ["Error during IP geolocation lookup: invalid JSON body"])
      | some (.obj kvs) =>
        match jsonGet kvs "status" with
        | none =>
          (.ok none, ["Error parsing geolocation response: 'status'"])
        | some sv =>
          if sv.eqStr "success" then
            (.ok (some ⟨(jsonGet kvs "city").getD (.str "Unknown"),
                        (jsonGet kvs "country").getD (.str "Unknown"),
                        (jsonGet kvs "org").getD (.str "Unknown"),
                        (jsonGet kvs "asname").getD (.str "Unknown")⟩), [])
          else
            match jsonGet kvs "message" with
            | none =>
              (.ok none, ["Error parsing geolocation response: 'message'"])
            | some m =>
              (.ok none, ["IP geolocation API error: " ++ m.pyStr])
      | some _ =>
        (.error (.typeError "json payload is not subscriptable by a str key"), [])

/-- One iteration of the scanning loop: split the line on `' '`, and if the
(always satisfied) guard `len(parts) > 0` holds, validate `parts[0]` and
either add it to the unique list or print a diagnostic.
The accumulator is `(unique_ips, printed diagnostics)`. -/
def scanLine (acc : List String × List String) (line : String) : List String × List String :=
  let parts := pySplit ' ' line.toList
  if parts.length > 0 then
    let ip_address := String.mk (parts.headD [])
    if is_ip ip_address then
      (if ip_address ∈ acc.1 then acc.1 else acc.1 ++ [ip_address], acc.2)
    else
      (acc.1, acc.2 ++ ["Invalid IP address found: " ++ ip_address])
  else acc

/-- The scanning loop over all lines of the log file. -/
def scanIPs (lines : List String) : List String × List String :=
  lines.foldl scanLine ([], [])

/-- The fixed header row written first. -/
def headerRow : List String :=
  ["IP Address", "City", "Country", "Organization", "ASName"]

/-- The driver loop over the unique IPs: resolve each IP and write its row.
Returns `(rows written, diagnostics, exception)` where the exception — if
any — is the one that aborts the loop and is caught by the driver's outer
`except Exception`:
* an exception escaping `get_ip_location` aborts immediately;
* on a truthy `location`, `city, country, org = location` unpacks the
  4-tuple into 3 names and raises `ValueError`, aborting (so the row
  `[ip, city, country, org, orgname]` on the next source line, which would
  also reference the undefined name `orgname`, is never written);
* on `location = None`, the row `[ip, "Unknown", "Unknown", "Unknown",
  "Unknown"]` is written and the loop continues. -/
def writeRows (oracle : String → HttpResponse) :
    List String → List (List String) × List String × Option PyExc
  | [] => ([], [], none)
  | ip :: rest =>
    let r := get_ip_location (oracle ip)
    match r.1 with
    | .error e => ([], r.2, some e)
    | .ok (some _) =>
      ([], r.2, some (.valueError "too many values to unpack (expected 3)"))
    | .ok none =>
      let w := writeRows oracle rest
      ([ip, "Unknown", "Unknown", "Unknown", "Unknown"] :: w.1, r.2 ++ w.2.1, w.2.2)

/-- The overall run (a file written or not, plus console diagnostics). -/
structure RunResult where
  output : Option (List (List String))
  diagnostics : List String

/-- Model of `parse_log_file(log_file_path, output_csv_path)`.
`contents` is the log file: `none` when it does not exist (the first `open`
raises `FileNotFoundError`, caught and reported, and the output path is never
opened — `output := none`); otherwise its lines as file iteration yields
them.  When the log exists, the scan runs to completion, the output file is
created with the header row, and the driver loop writes rows until it
finishes or an exception aborts it (caught by the outer `except Exception`,
which reports it; rows already written persist in the closed file). -/
def parse_log_file (log_file_path : String) (contents : Option (List String))
    (oracle : String → HttpResponse) : RunResult :=
  match contents with
  | none => ⟨none, ["Error: Log file not found at " ++ log_file_path]⟩
  | some lines =>
    let s := scanIPs lines
    let w := writeRows oracle s.1
    ⟨some (headerRow :: w.1),
     s.2 ++ w.2.1 ++
       (match w.2.2 with
        | none => []
        | some e => ["An unexpected error occurred: " ++ excMsg e])⟩

/-- The first space-delimited token of a log line, exactly as the scanner
computes it: `line.split(" ")[0]`. -/
def firstPart (line : String) : String :=
  String.mk ((pySplit ' ' line.toList).headD [])

/-- A service behaviour answering every query with a full success payload. -/
def successBody (city country org asname : String) : Json :=
  .obj [("status", .str "success"), ("city", .str city), ("country", .str country),
        ("org", .str org), ("asname", .str asname)]

/-- A service that resolves every IP successfully with all four fields. -/
def googleOracle : String → HttpResponse :=
  fun _ => .response 200 (some (successBody "Mountain View" "United States" "Google LLC" "GOOGLE"))

/-- A service that resolves `8.8.8.8` successfully and fails with a transport
error for every other IP. -/
def mixedOracle : String → HttpResponse :=
  fun ip =>
    if ip = "8.8.8.8" then
      .response 200 (some (successBody "Mountain View" "United States" "Google LLC" "GOOGLE"))
    else .transportError "connection timed out"

/-- A service that resolves `1.1.1.1` successfully and fails with a transport
error for every other IP. -/
def mixedOracle2 : String → HttpResponse :=
  fun ip =>
    if ip = "1.1.1.1" then
      .response 200 (some (successBody "Sydney" "Australia" "Cloudflare, Inc." "CLOUDFLARENET"))
    else .transportError "read timed out"

/-! ### Sanity checks
Concrete evaluations of the embedded validator, cross-checked against
`ipaddress.ip_address` of CPython 3.11, and of the driver model. -/

example : is_ip "8.8.8.8" = true := by decide
example : is_ip "8.8.8.8\n" = false := by decide
example : is_ip "999.999.999.999" = false := by decide
example : is_ip "not-an-ip" = false := by decide
example : is_ip "" = false := by decide
example : is_ip "fe80::1%eth0" = true := by decide
example : is_ip "fe80::1%eth0\n" = true := by decide
example : is_ip "::1" = true := by decide
example : is_ip "::" = true := by decide
example : is_ip "::ffff:1.2.3.4" = true := by decide
example : is_ip "01.2.3.4" = false := by decide
example : is_ip "1:2:3:4:5:6:7:8" = true := by decide
example : is_ip "1:2:3:4:5:6:7:8:9" = false := by decide
example : is_ip ":::" = false := by decide
example : is_ip "1::2" = true := by decide
example : is_ip "1::" = true := by decide
example : is_ip "::2" = true := by decide
example : is_ip ":1:2:3:4:5:6:7" = false := by decide
example : is_ip "fe80::1%" = false := by decide
example : is_ip "fe80::1%a%b" = false := by decide
example : is_ip "1.2.3.4%x" = false := by decide
example : is_ip "1:2:3:4:5:6:1.2.3.4" = true := by decide
example : is_ip "1:2:3:4:5:6:7:1.2.3.4" = false := by decide
example : is_ip "256.1.1.1" = false := by decide
example : is_ip "255.255.255.255" = true := by decide

example : (scanIPs ["8.8.8.8 GET /x\n", "8.8.8.8 GET /y\n"]).1 = ["8.8.8.8"] := by decide
example : (scanIPs ["not-an-ip GET /x\n"]).1 = [] := by decide
example : (scanIPs ["8.8.8.8\n"]).1 = [] := by decide
example : (scanIPs ["fe80::1%eth0\n"]).1 = ["fe80::1%eth0\n"] := by decide
example :
    (parse_log_file "access.log" (some ["8.8.8.8 GET /x\n"])
      (fun _ => .response 200 (some (successBody "a" "b" "c" "d")))).output
      = some [headerRow] := by decide
example :
    (parse_log_file "access.log" (some ["8.8.8.8 GET /x\n"])
      (fun _ => .transportError "timeout")).output
      = some [headerRow, ["8.8.8.8", "Unknown", "Unknown", "Unknown", "Unknown"]] := by decide
example :
    (parse_log_file "access.log" none (fun _ => .transportError "timeout")).output = none := by
  decide

/-! ### Helper lemmas -/

theorem pySplit_ne_nil (sep : Char) (l : List Char) : pySplit sep l ≠ [] := by
  cases l with
  | nil => simp [pySplit]
  | cons c cs =>
    by_cases h : c = sep
    · simp [pySplit, h]
    · simp only [pySplit, if_neg h]
      cases pySplit sep cs <;> simp

theorem pySplit_length_pos (sep : Char) (l : List Char) : 0 < (pySplit sep l).length :=
  List.length_pos.mpr (pySplit_ne_nil sep l)

theorem pySplit_headD (sep : Char) (l : List Char) :
    (pySplit sep l).headD [] = l.takeWhile (· ≠ sep) := by
  induction l with
  | nil => simp [pySplit]
  | cons c cs ih =>
    by_cases h : c = sep
    · simp [pySplit, h, List.takeWhile_cons]
    · simp only [pySplit, if_neg h, List.takeWhile_cons, decide_eq_true_eq]
      rw [if_pos h]
      rcases heq : pySplit sep cs with _ | ⟨t, ts⟩
      · exact absurd heq (pySplit_ne_nil sep cs)
      · simp only [List.headD_cons]
        rw [heq] at ih
        simp only [List.headD_cons] at ih
        rw [ih]

theorem pySplit_mem_of_mem (sep c : Char) (l : List Char) (h : c ∈ l) :
    c = sep ∨ ∃ p ∈ pySplit sep l, c ∈ p := by
  induction l with
  | nil => cases h
  | cons c' cs ih =>
    rcases List.mem_cons.mp h with rfl | hcs
    · by_cases hs : c = sep
      · exact Or.inl hs
      · refine Or.inr ?_
        simp only [pySplit, if_neg hs]
        rcases heq : pySplit sep cs with _ | ⟨t, ts⟩
        · exact ⟨[c], by simp⟩
        · exact ⟨c :: t, by simp⟩
    · rcases ih hcs with hs | ⟨p, hp, hcp⟩
      · exact Or.inl hs
      · refine Or.inr ?_
        by_cases hs : c' = sep
        · exact ⟨p, by simp [pySplit, hs, hp], hcp⟩
        · simp only [pySplit, if_neg hs]
          rcases heq : pySplit sep cs with _ | ⟨t, ts⟩
          · exact absurd heq (pySplit_ne_nil sep cs)
          · rw [heq] at hp
            rcases List.mem_cons.mp hp with rfl | hpts
            · exact ⟨c' :: p, by simp, List.mem_cons_of_mem _ hcp⟩
            · exact ⟨p, List.mem_cons_of_mem _ hpts, hcp⟩

theorem list_getD_eq_getElem {α : Type} (l : List α) (d : α) {i : Nat} (h : i < l.length) :
    l.getD i d = l[i] := by
  simp [List.getD, List.getElem?_eq_getElem h]

theorem list_headD_eq_getElem {α : Type} (l : List α) (d : α) (h : 0 < l.length) :
    l.headD d = l[0] := by
  cases l with
  | nil => simp at h
  | cons a t => rfl

theorem list_getLastD_eq_getElem {α : Type} :
    ∀ (l : List α) (d : α) (h : 0 < l.length),
      l.getLastD d = l[l.length - 1]
  | [_], _, _ => rfl
  | a :: b :: u, d, _ => by
    rw [List.getLastD_cons, list_getLastD_eq_getElem (b :: u) a (by simp)]
    simp

theorem emptyMids_spec (parts : List (List Char)) (i : Nat) :
    i ∈ emptyMids parts ↔ 0 < i ∧ i + 1 < parts.length ∧ parts.getD i [] = [] := by
  simp only [emptyMids, List.mem_filter, List.mem_range, Bool.and_eq_true, decide_eq_true_eq,
    and_assoc]
  constructor
  · rintro ⟨-, h⟩
    exact h
  · rintro ⟨h1, h2, h3⟩
    exact ⟨by omega, h1, h2, h3⟩

theorem mem_take_of_lt {α : Type} (l : List α) {i m : Nat} (hi : i < l.length) (him : i < m) :
    l[i] ∈ l.take m := by
  rw [List.mem_iff_getElem]
  refine ⟨i, by simp only [List.length_take]; omega, ?_⟩
  simp

theorem mem_drop_of_le {α : Type} (l : List α) {i m : Nat} (hi : i < l.length) (him : m ≤ i) :
    l[i] ∈ l.drop m := by
  rw [List.mem_iff_getElem]
  refine ⟨i - m, by simp only [List.length_drop]; omega, ?_⟩
  simp only [List.getElem_drop]
  congr 1
  omega

theorem checkParts_mem {parts : List (List Char)} (h : checkParts parts = true) :
    ∀ p ∈ parts, p = [] ∨ isValidHextet p = true := by
  intro p hp
  obtain ⟨i, hi, rfl⟩ := List.mem_iff_getElem.mp hp
  unfold checkParts at h
  split at h
  · -- no '::' skip: all 8 parts are valid hextets
    simp only [Bool.and_eq_true, decide_eq_true_eq, List.all_eq_true] at h
    exact Or.inr (h.2 _ (List.getElem_mem hi))
  · -- exactly one skip position k
    rename_i k hEM
    obtain ⟨hk0, hkn, hkD⟩ :=
      (emptyMids_spec parts k).mp (by rw [hEM]; exact List.mem_singleton_self k)
    have hn0 : 0 < parts.length := by omega
    have hkelem : parts[k] = [] := by
      rw [← list_getD_eq_getElem parts [] (show k < parts.length by omega)]
      exact hkD
    split at h
    · -- hiVal = some hi', loVal = some lo'
      rename_i hi' lo' hhi hlo
      unfold checkHextets at h
      simp only [Bool.and_eq_true, decide_eq_true_eq, List.all_eq_true] at h
      obtain ⟨⟨hskip, htake⟩, hdrop⟩ := h
      have hHI : (parts.headD [] = [] ∧ hi' = 0 ∧ k = 1) ∨
          (parts.headD [] ≠ [] ∧ hi' = k) := by
        unfold hiVal at hhi
        split at hhi
        · split at hhi
          · rename_i hH hk1
            exact Or.inl ⟨hH, by injection hhi with e; omega, by omega⟩
          · cases hhi
        · rename_i hH
          exact Or.inr ⟨hH, by injection hhi with e; omega⟩
      have hLO : (parts.getLastD [] = [] ∧ lo' = 0 ∧ parts.length = k + 2) ∨
          (parts.getLastD [] ≠ [] ∧ lo' = parts.length - k - 1) := by
        unfold loVal at hlo
        split at hlo
        · split at hlo
          · rename_i hL hn2
            exact Or.inl ⟨hL, by injection hlo with e; omega, by omega⟩
          · cases hlo
        · rename_i hL
          exact Or.inr ⟨hL, by injection hlo with e; omega⟩
      by_cases hc1 : i < hi'
      · exact Or.inr (htake _ (mem_take_of_lt parts hi hc1))
      · by_cases hc2 : parts.length - lo' ≤ i
        · exact Or.inr (hdrop _ (mem_drop_of_le parts hi hc2))
        · -- the middle positions: all empty
          refine Or.inl ?_
          have h0 : parts.headD [] = [] → parts[0] = [] := by
            intro hH
            rw [← list_headD_eq_getElem parts [] hn0]
            exact hH
          have hlast : parts.getLastD [] = [] →
              parts[parts.length - 1] = [] := by
            intro hL
            rw [← list_getLastD_eq_getElem parts [] hn0]
            exact hL
          rcases hHI with ⟨hH, hhi0, hk1⟩ | ⟨hH, hhik⟩ <;>
            rcases hLO with ⟨hL, hlo0, hn2⟩ | ⟨hL, hlon⟩
          · -- "::": i ∈ {0, k, k+1} with length = k + 2 = 3
            have hcase : i = 0 ∨ i = k ∨ i = parts.length - 1 := by omega
            rcases hcase with hcase | hcase | hcase <;> subst hcase
            · exact h0 hH
            · exact hkelem
            · exact hlast hL
          · -- leading "::a": i ∈ {0, k}
            have hcase : i = 0 ∨ i = k := by omega
            rcases hcase with hcase | hcase <;> subst hcase
            · exact h0 hH
            · exact hkelem
          · -- trailing "a::": i ∈ {k, length - 1}
            have hcase : i = k ∨ i = parts.length - 1 := by omega
            rcases hcase with hcase | hcase <;> subst hcase
            · exact hkelem
            · exact hlast hL
          · -- interior "a::b": i = k
            have hcase : i = k := by omega
            subst hcase
            exact hkelem
    · cases h
  · cases h

theorem ipv4_chars {l : List Char} (h : isIPv4 l = true) :
    ∀ c ∈ l, c = '.' ∨ isAsciiDigit c = true := by
  intro c hc
  simp only [isIPv4, Bool.and_eq_true, decide_eq_true_eq, List.all_eq_true] at h
  rcases pySplit_mem_of_mem '.' c l hc with rfl | ⟨p, hp, hcp⟩
  · exact Or.inl rfl
  · refine Or.inr ?_
    have hoct := h.2.2 p hp
    simp only [isValidOctet, Bool.and_eq_true, List.all_eq_true] at hoct
    exact hoct.1.1.1.2 c hcp

theorem ipv6core_chars {l : List Char} (h : isIPv6Core l = true) :
    ∀ c ∈ l, c = ':' ∨ c = '.' ∨ isHexChar c = true := by
  intro c hc
  simp only [isIPv6Core, Bool.and_eq_true, decide_eq_true_eq] at h
  obtain ⟨-, -, hm⟩ := h
  split at hm
  · cases hm
  · rename_i parts hExp
    simp only [Bool.and_eq_true, decide_eq_true_eq] at hm
    have hparts := checkParts_mem hm.2
    rcases pySplit_mem_of_mem ':' c l hc with rfl | ⟨p, hp, hcp⟩
    · exact Or.inl rfl
    · -- `c` sits in a colon-part `p` of the original split
      have hex_of_mem : p ∈ parts → isHexChar c = true := by
        intro hpp
        rcases hparts p hpp with rfl | hhex
        · cases hcp
        · simp only [isValidHextet, Bool.and_eq_true, List.all_eq_true] at hhex
          exact hhex.1.2 c hcp
      unfold expandV4 at hExp
      split at hExp
      · -- impossible: pySplit is never empty, but this branch keeps parts unchanged anyway
        injection hExp with e
        subst e
        exact Or.inr (Or.inr (hex_of_mem hp))
      · rename_i last hLast
        obtain ⟨ys, hys⟩ := List.getLast?_eq_some_iff.mp hLast
        split at hExp
        · rename_i hdot
          split at hExp
          · rename_i hv4
            injection hExp with e
            rw [hys] at hp
            rcases List.mem_append.mp hp with hpy | hpl
            · refine Or.inr (Or.inr (hex_of_mem ?_))
              rw [← e, hys, List.dropLast_concat]
              exact List.mem_append_left _ hpy
            · -- p is the IPv4 suffix
              have hpl : p = last := by simpa using hpl
              subst hpl
              rcases ipv4_chars hv4 c hcp with hdot' | hdig
              · exact Or.inr (Or.inl hdot')
              · refine Or.inr (Or.inr ?_)
                simp only [isHexChar, Bool.or_eq_true]
                exact Or.inl (Or.inl hdig)
          · cases hExp
        · injection hExp with e
          subst e
          exact Or.inr (Or.inr (hex_of_mem hp))

/-- A string accepted by `ipaddress.ip_address` that contains a newline or a
tab must contain a `'%'`: only the unvalidated scope-id suffix of an IPv6
address can hold whitespace.  In particular a valid IPv4 or scope-free IPv6
address followed by a trailing newline or tab is never accepted. -/
theorem is_ip_whitespace_percent {t : String} {c : Char} (hip : is_ip t = true)
    (hc : c ∈ t.toList) (hw : c = '\n' ∨ c = '\t') : '%' ∈ t.toList := by
  by_cases hpc : '%' ∈ t.toList
  · exact hpc
  · exfalso
    simp only [is_ip, Bool.or_eq_true] at hip
    rcases hip with h4 | h6
    · rcases ipv4_chars h4 c hc with rfl | hdig
      · rcases hw with h | h <;> cases h
      · rcases hw with rfl | rfl <;> simp [isAsciiDigit] at hdig
    · simp only [isIPv6, Bool.and_eq_true, decide_eq_true_eq] at h6
      obtain ⟨-, h6⟩ := h6
      split at h6
      · cases h6
      · rename_i addr hscope
        unfold splitScope at hscope
        rw [if_neg hpc] at hscope
        injection hscope with e
        subst e
        rcases ipv6core_chars h6 c hc with rfl | rfl | hhex
        · rcases hw with h | h <;> cases h
        · rcases hw with h | h <;> cases h
        · rcases hw with rfl | rfl <;> simp [isHexChar, isAsciiDigit] at hhex

theorem takeWhile_ne_of_not_mem (l : List Char) (a : Char) (hl : a ∉ l) :
    l.takeWhile (· ≠ a) = l := by
  induction l with
  | nil => rfl
  | cons c cs ih =>
    have hc : c ≠ a := fun e => hl (e ▸ List.mem_cons_self _ _)
    rw [List.takeWhile_cons, if_pos (decide_eq_true hc)]
    exact congrArg (List.cons c) (ih (fun hmem => hl (List.mem_cons_of_mem _ hmem)))

theorem scanLine_fst_mem (acc : List String × List String) (line t : String) :
    t ∈ (scanLine acc line).1 ↔ t ∈ acc.1 ∨ (is_ip t = true ∧ firstPart line = t) := by
  have hguard : (pySplit ' ' line.toList).length > 0 := pySplit_length_pos ' ' line.toList
  by_cases hip : is_ip (firstPart line) = true
  · by_cases hmem : firstPart line ∈ acc.1
    · have hred : (scanLine acc line).1 = acc.1 := by
        simp only [firstPart] at hip hmem
        simp only [scanLine]
        rw [if_pos hguard, if_pos hip, if_pos hmem]
      rw [hred]
      constructor
      · exact Or.inl
      · rintro (h | ⟨hipt, rfl⟩)
        · exact h
        · exact hmem
    · have hred : (scanLine acc line).1 = acc.1 ++ [firstPart line] := by
        simp only [firstPart] at hip hmem ⊢
        simp only [scanLine]
        rw [if_pos hguard, if_pos hip, if_neg hmem]
      rw [hred, List.mem_append, List.mem_singleton]
      constructor
      · rintro (h | rfl)
        · exact Or.inl h
        · exact Or.inr ⟨hip, rfl⟩
      · rintro (h | ⟨hipt, heq⟩)
        · exact Or.inl h
        · exact Or.inr heq.symm
  · have hred : (scanLine acc line).1 = acc.1 := by
      simp only [firstPart] at hip
      simp only [scanLine]
      rw [if_pos hguard, if_neg hip]
    rw [hred]
    constructor
    · exact Or.inl
    · rintro (h | ⟨hipt, heq⟩)
      · exact h
      · exact absurd (heq ▸ hipt) hip

theorem scan_foldl_mem (lines : List String) (acc : List String × List String) (t : String) :
    t ∈ (lines.foldl scanLine acc).1 ↔
      t ∈ acc.1 ∨ (is_ip t = true ∧ ∃ line ∈ lines, firstPart line = t) := by
  induction lines generalizing acc with
  | nil => simp
  | cons l ls ih =>
    rw [List.foldl_cons, ih, scanLine_fst_mem]
    constructor
    · rintro ((h | ⟨h1, h2⟩) | ⟨h1, line, hline, h2⟩)
      · exact Or.inl h
      · exact Or.inr ⟨h1, l, List.mem_cons_self _ _, h2⟩
      · exact Or.inr ⟨h1, line, List.mem_cons_of_mem _ hline, h2⟩
    · rintro (h | ⟨h1, line, hline, h2⟩)
      · exact Or.inl (Or.inl h)
      · rcases List.mem_cons.mp hline with rfl | h3
        · exact Or.inl (Or.inr ⟨h1, h2⟩)
        · exact Or.inr ⟨h1, line, h3, h2⟩

theorem scanIPs_mem (lines : List String) (t : String) :
    t ∈ (scanIPs lines).1 ↔ is_ip t = true ∧ ∃ line ∈ lines, firstPart line = t := by
  unfold scanIPs
  rw [scan_foldl_mem]
  simp

theorem writeRows_mem (oracle : String → HttpResponse) (ips : List String) (row : List String)
    (h : row ∈ (writeRows oracle ips).1) :
    ∃ ip ∈ ips, row = [ip, "Unknown", "Unknown", "Unknown", "Unknown"] := by
  induction ips with
  | nil => simp [writeRows] at h
  | cons ip rest ih =>
    simp only [writeRows] at h
    split at h
    · simp at h
    · simp at h
    · rcases List.mem_cons.mp h with rfl | htail
      · exact ⟨ip, List.mem_cons_self _ _, rfl⟩
      · obtain ⟨ip', hip', heq⟩ := ih htail
        exact ⟨ip', List.mem_cons_of_mem _ hip', heq⟩

theorem parse_output_rows (path : String) (lines : List String)
    (oracle : String → HttpResponse) (rows : List (List String))
    (h : (parse_log_file path (some lines) oracle).output = some (headerRow :: rows)) :
    rows = (writeRows oracle (scanIPs lines).1).1 := by
  simp only [parse_log_file, Option.some.injEq, List.cons.injEq, true_and] at h
  exact h.symm

theorem gil_obj_ok (code : Nat) (kvs : List (String × Json))
    (hcode : ¬(400 ≤ code ∧ code < 600)) :
    (∃ r, (get_ip_location (.response code (some (.obj kvs)))).1 = Except.ok r) ∧
      ((get_ip_location (.response code (some (.obj kvs)))).1 = Except.ok none →
        (get_ip_location (.response code (some (.obj kvs)))).2 ≠ []) := by
  simp only [get_ip_location, if_neg hcode]
  split
  · exact ⟨⟨none, rfl⟩, by simp⟩
  · split
    · exact ⟨⟨_, rfl⟩, by simp⟩
    · split
      · exact ⟨⟨none, rfl⟩, by simp⟩
      · exact ⟨⟨none, rfl⟩, by simp⟩

theorem gil_nonobj (code : Nat) (j : Json) (hcode : ¬(400 ≤ code ∧ code < 600))
    (hobj : j.isObj = false) :
    (get_ip_location (.response code (some j))).1
      = Except.error (.typeError "json payload is not subscriptable by a str key") := by
  cases j
  case obj kvs => simp [Json.isObj] at hobj
  all_goals simp [get_ip_location, if_neg hcode]

/-! ### Claims -/

/-- C1: the claim says that for every input log the output table has exactly
one data row per distinct valid leading IP token (no duplicates, no
omissions).  The code violates it: a successful lookup makes the driver
unpack the resolver's 4-tuple into 3 names, raising `ValueError` and
aborting the loop, so the IP's row is omitted.  Here the log has exactly one
distinct valid leading IP token, `8.8.8.8`, every lookup succeeds, and the
output contains the header row and no data row at all. -/
theorem claim_C1_code_bug :
    (scanIPs ["8.8.8.8 GET /x\n", "8.8.8.8 GET /y\n"]).1 = ["8.8.8.8"] ∧
      (parse_log_file "access.log" (some ["8.8.8.8 GET /x\n", "8.8.8.8 GET /y\n"])
          googleOracle).output = some [headerRow] :=
  ⟨by decide, by decide⟩

/-- C2: the claim says that when the lookup succeeds with all four fields the
driver writes the row `[ip, city, country, org, asname]`.  The code violates
it: the resolver does return the full 4-tuple, but the driver's 3-name
unpacking of it raises `ValueError` before the row is written, so the output
holds only the header row. -/
theorem claim_C2_code_bug :
    (get_ip_location (googleOracle "8.8.8.8")).1
        = Except.ok (some ⟨Json.str "Mountain View", Json.str "United States",
            Json.str "Google LLC", Json.str "GOOGLE"⟩) ∧
      (parse_log_file "access.log" (some ["8.8.8.8 - - GET /index.html\n"])
          googleOracle).output = some [headerRow] :=
  ⟨rfl, by decide⟩

/-- C3: the claim says the output table is always produced in full regardless
of the mix of lookup successes and failures.  The code violates it: with a
mix (here `8.8.8.8` succeeds and `9.9.9.9` fails), the successful lookup
raises `ValueError` in the driver loop and the run aborts with a partial
table missing both rows, while the same failing IP alone does get its row. -/
theorem claim_C3_code_bug :
    (parse_log_file "access.log" (some ["8.8.8.8 a b\n", "9.9.9.9 c d\n"])
        mixedOracle).output = some [headerRow] ∧
      (parse_log_file "access.log" (some ["9.9.9.9 c d\n"]) mixedOracle).output
        = some [headerRow, ["9.9.9.9", "Unknown", "Unknown", "Unknown", "Unknown"]] ∧
      (parse_log_file "access.log" (some ["8.8.8.8 a b\n", "9.9.9.9 c d\n"])
          mixedOracle).diagnostics
        = ["An unexpected error occurred: too many values to unpack (expected 3)"] :=
  ⟨by decide, by decide, by decide⟩

/-- C6: the claim says every unique IP whose resolution fails gets a row with
four `"Unknown"` placeholders.  The code violates it when an earlier
successful lookup aborts the loop: here `2.2.2.2`'s resolution fails (the
resolver returns the `None` indicator), but because `1.1.1.1` is processed
first and succeeds, the loop dies on the unpacking `ValueError` and no row
for `2.2.2.2` is ever written. -/
theorem claim_C6_code_bug :
    (get_ip_location (mixedOracle2 "2.2.2.2")).1 = Except.ok none ∧
      (parse_log_file "access.log" (some ["1.1.1.1 x\n", "2.2.2.2 y\n"])
          mixedOracle2).output = some [headerRow] :=
  ⟨rfl, by decide⟩

/-- C4 counterexample: the claim says the resolver never raises an uncaught
exception for any service behaviour, including structurally unexpected
payloads.  But when the body decodes to a JSON value that is not an object —
here the array `[]` under HTTP 200 — `data["status"]` raises `TypeError`,
which no `except` clause of `get_ip_location` catches. -/
theorem claim_C4_counterexample :
    (get_ip_location (.response 200 (some (.arr [])))).1
      = Except.error (.typeError "json payload is not subscriptable by a str key") := rfl

/-- C4 (amended): the resolver raises an uncaught exception exactly when the
transport succeeds, the HTTP status is not an error status (outside 400–599),
and the body decodes to a JSON value that is not an object; for every other
service behaviour (transport error, HTTP error status, undecodable body,
object payload with any contents) it returns a Location Record or the `None`
failure indicator, and whenever it returns the failure indicator it has
reported at least one diagnostic. -/
theorem claim_C4_amended (resp : HttpResponse) :
    ((∃ e, (get_ip_location resp).1 = Except.error e) ↔
      ∃ code j, resp = HttpResponse.response code (some j) ∧
        ¬(400 ≤ code ∧ code < 600) ∧ j.isObj = false) ∧
    ((get_ip_location resp).1 = Except.ok none → (get_ip_location resp).2 ≠ []) := by
  cases resp with
  | transportError m =>
    refine ⟨⟨?_, ?_⟩, ?_⟩
    · rintro ⟨e, he⟩
      simp [get_ip_location] at he
    · rintro ⟨code, j, hcj, -, -⟩
      cases hcj
    · intro _
      simp [get_ip_location]
  | response code body =>
    by_cases hcode : 400 ≤ code ∧ code < 600
    · refine ⟨⟨?_, ?_⟩, ?_⟩
      · rintro ⟨e, he⟩
        simp [get_ip_location, if_pos hcode] at he
      · rintro ⟨code', j, hcj, hc', -⟩
        injection hcj with h1 h2
        subst h1
        exact absurd hcode hc'
      · intro _
        simp [get_ip_location, if_pos hcode]
    · cases body with
      | none =>
        refine ⟨⟨?_, ?_⟩, ?_⟩
        · rintro ⟨e, he⟩
          simp [get_ip_location, if_neg hcode] at he
        · rintro ⟨code', j, hcj, -, -⟩
          injection hcj with h1 h2
          cases h2
        · intro _
          simp [get_ip_location, if_neg hcode]
      | some j =>
        by_cases hobj : j.isObj = true
        · obtain ⟨kvs, rfl⟩ : ∃ kvs, j = Json.obj kvs := by
            cases j <;> simp [Json.isObj] at hobj ⊢
          have hok := gil_obj_ok code kvs hcode
          refine ⟨⟨?_, ?_⟩, hok.2⟩
          · rintro ⟨e, he⟩
            obtain ⟨r, hr⟩ := hok.1
            rw [hr] at he
            cases he
          · rintro ⟨code', j', hcj, -, hobj'⟩
            injection hcj with h1 h2
            injection h2 with h2
            subst h2
            simp [Json.isObj] at hobj'
        · have hobj' : j.isObj = false := by
            cases hv : j.isObj
            · rfl
            · exact absurd hv hobj
          refine ⟨⟨?_, ?_⟩, ?_⟩
          · intro _
            exact ⟨code, j, rfl, hcode, hobj'⟩
          · intro _
            exact ⟨_, gil_nonobj code j hcode hobj'⟩
          · intro h
            rw [gil_nonobj code j hcode hobj'] at h
            cases h

/-- C4 witness: the amended theorem applied to a transport error (failure
indicator with a reported diagnostic) and to a decodable non-object payload
(an uncaught exception exists). -/
theorem claim_C4_witness :
    (get_ip_location (HttpResponse.transportError "connection refused")).2 ≠ [] ∧
      ∃ e, (get_ip_location (.response 200 (some (.num 7)))).1 = Except.error e :=
  ⟨(claim_C4_amended (HttpResponse.transportError "connection refused")).2 rfl,
   ((claim_C4_amended (.response 200 (some (.num 7)))).1).mpr
     ⟨200, .num 7, rfl, by omega, rfl⟩⟩

/-- C5: when the HTTP layer does not fail, the payload is an object, and its
status flag is the string `"success"`, the resolver returns a record whose
`city`, `country`, `org` and `asname` fields are exactly the corresponding
payload entries, with the string `"Unknown"` substituted for each absent
field — so a success result never lacks a field. -/
theorem claim_C5_success_fields (code : Nat) (kvs : List (String × Json))
    (hcode : ¬(400 ≤ code ∧ code < 600))
    (hstatus : jsonGet kvs "status" = some (Json.str "success")) :
    ∃ rec : LocationRecord,
      (get_ip_location (.response code (some (.obj kvs)))).1 = Except.ok (some rec) ∧
      (∀ v, jsonGet kvs "city" = some v → rec.city = v) ∧
      (jsonGet kvs "city" = none → rec.city = Json.str "Unknown") ∧
      (∀ v, jsonGet kvs "country" = some v → rec.country = v) ∧
      (jsonGet kvs "country" = none → rec.country = Json.str "Unknown") ∧
      (∀ v, jsonGet kvs "org" = some v → rec.org = v) ∧
      (jsonGet kvs "org" = none → rec.org = Json.str "Unknown") ∧
      (∀ v, jsonGet kvs "asname" = some v → rec.orgname = v) ∧
      (jsonGet kvs "asname" = none → rec.orgname = Json.str "Unknown") := by
  refine ⟨⟨(jsonGet kvs "city").getD (.str "Unknown"),
           (jsonGet kvs "country").getD (.str "Unknown"),
           (jsonGet kvs "org").getD (.str "Unknown"),
           (jsonGet kvs "asname").getD (.str "Unknown")⟩,
         ?_, ?_, ?_, ?_, ?_, ?_, ?_, ?_, ?_⟩
  · simp only [get_ip_location, if_neg hcode, hstatus, Json.eqStr]
    rw [if_pos (by simp)]
  · intro v hv; simp [hv]
  · intro hv; simp [hv]
  · intro v hv; simp [hv]
  · intro hv; simp [hv]
  · intro v hv; simp [hv]
  · intro hv; simp [hv]
  · intro v hv; simp [hv]
  · intro hv; simp [hv]

/-- C5 witness: a concrete success payload that omits the `org` field; the
resolver returns `Paris` / `France` / `"Unknown"` / `FR-AS`. -/
theorem claim_C5_witness :
    ∃ rec : LocationRecord,
      (get_ip_location (.response 200 (some (.obj
          [("status", Json.str "success"), ("city", Json.str "Paris"),
           ("country", Json.str "France"), ("asname", Json.str "FR-AS")])))).1
        = Except.ok (some rec) ∧
      (∀ v, jsonGet [("status", Json.str "success"), ("city", Json.str "Paris"),
           ("country", Json.str "France"), ("asname", Json.str "FR-AS")] "city" = some v →
        rec.city = v) ∧
      (jsonGet [("status", Json.str "success"), ("city", Json.str "Paris"),
           ("country", Json.str "France"), ("asname", Json.str "FR-AS")] "city" = none →
        rec.city = Json.str "Unknown") ∧
      (∀ v, jsonGet [("status", Json.str "success"), ("city", Json.str "Paris"),
           ("country", Json.str "France"), ("asname", Json.str "FR-AS")] "country" = some v →
        rec.country = v) ∧
      (jsonGet [("status", Json.str "success"), ("city", Json.str "Paris"),
           ("country", Json.str "France"), ("asname", Json.str "FR-AS")] "country" = none →
        rec.country = Json.str "Unknown") ∧
      (∀ v, jsonGet [("status", Json.str "success"), ("city", Json.str "Paris"),
           ("country", Json.str "France"), ("asname", Json.str "FR-AS")] "org" = some v →
        rec.org = v) ∧
      (jsonGet [("status", Json.str "success"), ("city", Json.str "Paris"),
           ("country", Json.str "France"), ("asname", Json.str "FR-AS")] "org" = none →
        rec.org = Json.str "Unknown") ∧
      (∀ v, jsonGet [("status", Json.str "success"), ("city", Json.str "Paris"),
           ("country", Json.str "France"), ("asname", Json.str "FR-AS")] "asname" = some v →
        rec.orgname = v) ∧
      (jsonGet [("status", Json.str "success"), ("city", Json.str "Paris"),
           ("country", Json.str "France"), ("asname", Json.str "FR-AS")] "asname" = none →
        rec.orgname = Json.str "Unknown") :=
  claim_C5_success_fields 200 _ (by omega) rfl

/-- C7: with a missing input log file the run reports a "file not found"
diagnostic naming the path, and the output record is `none`: the output path
is never opened for writing and no output file is created. -/
theorem claim_C7_file_not_found (log_file_path : String) (oracle : String → HttpResponse) :
    (parse_log_file log_file_path none oracle).output = none ∧
      (parse_log_file log_file_path none oracle).diagnostics
        = ["Error: Log file not found at " ++ log_file_path] :=
  ⟨rfl, rfl⟩

/-- C8: every data row of a produced output table starts with a string that
the validator accepts (`ipaddress.ip_address` succeeds on it) and that
occurred as the leading space-delimited token (`line.split(" ")[0]`) of some
line of the input log; invalid leading tokens never appear as a row's IP. -/
theorem claim_C8_row_ips_valid (path : String) (lines : List String)
    (oracle : String → HttpResponse) (rows : List (List String)) (row : List String)
    (hout : (parse_log_file path (some lines) oracle).output = some (headerRow :: rows))
    (hrow : row ∈ rows) :
    is_ip (row.headD "") = true ∧ ∃ line ∈ lines, firstPart line = row.headD "" := by
  have hrows := parse_output_rows path lines oracle rows hout
  rw [hrows] at hrow
  obtain ⟨ip, hip, rfl⟩ := writeRows_mem oracle _ row hrow
  simp only [List.headD_cons]
  exact (scanIPs_mem lines ip).mp hip

/-- C8 witness: a one-line log under an always-failing service produces a
table whose single data row carries the valid leading token `1.2.3.4`. -/
theorem claim_C8_witness :
    is_ip ((["1.2.3.4", "Unknown", "Unknown", "Unknown", "Unknown"] : List String).headD "")
        = true ∧
      ∃ line ∈ ["1.2.3.4 GET /index.html HTTP/1.1\n"],
        firstPart line
          = (["1.2.3.4", "Unknown", "Unknown", "Unknown", "Unknown"] : List String).headD "" :=
  claim_C8_row_ips_valid "access.log" ["1.2.3.4 GET /index.html HTTP/1.1\n"]
    (fun _ => .transportError "timed out")
    [["1.2.3.4", "Unknown", "Unknown", "Unknown", "Unknown"]]
    ["1.2.3.4", "Unknown", "Unknown", "Unknown", "Unknown"]
    (by decide) (List.mem_cons_self _ _)

/-- C9: token extraction is total: splitting any line — including the empty
line — on the space character yields a non-empty list, so the scanner's
guard `len(parts) > 0` always holds and taking `parts[0]` never fails. -/
theorem claim_C9_split_total (line : String) :
    pySplit ' ' line.toList ≠ [] ∧ 0 < (pySplit ' ' line.toList).length :=
  ⟨pySplit_ne_nil ' ' line.toList, pySplit_length_pos ' ' line.toList⟩

/-- C10 counterexample: the claim says a no-space line consisting of a valid
IP address followed by a newline keeps the newline in its token and is never
added to the set.  But `fe80::1%eth0` is a valid (scoped) IPv6 address, the
line `"fe80::1%eth0\n"` contains no space, and its full token
`"fe80::1%eth0\n"` is itself accepted by `ipaddress.ip_address` — the
unvalidated scope id absorbs the newline — so it IS added to the set. -/
theorem claim_C10_counterexample :
    (' ' ∉ "fe80::1%eth0\n".toList) ∧ is_ip "fe80::1%eth0" = true ∧
      firstPart "fe80::1%eth0\n" = "fe80::1%eth0\n" ∧
      (scanIPs ["fe80::1%eth0\n"]).1 = ["fe80::1%eth0\n"] :=
  ⟨by decide, by decide, by decide, by decide⟩

/-- C10 (amended): the candidate token of a line is exactly the maximal
prefix of the raw unstripped line up to the first space (U+0020); a token is
in the unique set iff the full token is accepted by the validator and leads
some line; a line with no space contributes the entire line (trailing
newline included) as its token; and a token containing a newline or a tab is
accepted only when it contains a `'%'` (a scoped IPv6 address whose scope id
absorbs the whitespace) — in particular an IPv4 or unscoped IPv6 address
followed by a newline or tab is never added. -/
theorem claim_C10_amended (lines : List String) (line t : String) :
    firstPart line = String.mk (line.toList.takeWhile (· ≠ ' ')) ∧
    (t ∈ (scanIPs lines).1 ↔ is_ip t = true ∧ ∃ l ∈ lines, firstPart l = t) ∧
    (' ' ∉ line.toList → firstPart line = line) ∧
    (('\n' ∈ t.toList ∨ '\t' ∈ t.toList) → '%' ∉ t.toList → is_ip t = false) := by
  refine ⟨?_, scanIPs_mem lines t, ?_, ?_⟩
  · unfold firstPart
    rw [pySplit_headD]
  · intro hsp
    unfold firstPart
    rw [pySplit_headD, takeWhile_ne_of_not_mem _ _ hsp]
    cases line
    rfl
  · intro hw hpc
    cases hb : is_ip t
    · rfl
    · exfalso
      rcases hw with hw | hw
      · exact hpc (is_ip_whitespace_percent hb hw (Or.inl rfl))
      · exact hpc (is_ip_whitespace_percent hb hw (Or.inr rfl))

/-- C10 witness: for the line `"8.8.8.8\n"` (no space) the token is the whole
line, that token is rejected by the validator, and it is not added. -/
theorem claim_C10_witness :
    firstPart "8.8.8.8\n" = "8.8.8.8\n" ∧ is_ip "8.8.8.8\n" = false ∧
      "8.8.8.8\n" ∉ (scanIPs ["8.8.8.8\n"]).1 := by
  have h := claim_C10_amended ["8.8.8.8\n"] "8.8.8.8\n" "8.8.8.8\n"
  have hfalse : is_ip "8.8.8.8\n" = false := h.2.2.2 (Or.inl (by decide)) (by decide)
  refine ⟨h.2.2.1 (by decide), hfalse, fun hmem => ?_⟩
  have := (h.2.1.mp hmem).1
  rw [hfalse] at this
  cases this
